import Mathlib

/-
  Shallow embedding of the rust-meet session loop (src/main.rs), its wire
  data model (src/p2p.rs), the TUI state it mutates (src/tui.rs), the audio
  device callbacks (src/audio.rs) and the ASCII conversion (src/video.rs).

  Modelling conventions:
  - Rust String is modelled as Lean String; peer ids and topics are ASCII,
    so byte indices and char indices coincide for the slices the code takes.
  - f32 PCM samples are modelled as Rat: the only operations the code
    performs on samples are copying and writing the constant 0.0, which are
    exact in any numeric carrier.
  - serde_json round-trips are modelled by a WireMsg sum: a payload decodes
    under the type matching its constructor and fails to decode otherwise
    (each loop branch attempts exactly one deserialization, selected by the
    wire topic, so cross-type decoding never matters).
  - A Rust panic (out-of-bounds slice) is modelled as Option.none.
  - The terminal renderer, the camera device, the font-rendered contents of
    the synthetic no-camera frame, the file dialog and the download worker
    thread are external collaborators: they enter the model through the Env
    record (capture outcome, picked file, publish failure) rather than as
    code, since their code is outside the session loop under test.
-/

namespace RustMeet

/-! Topic constants from src/p2p.rs. -/

def VIDEO_TOPIC : String := "video"
def AUDIO_TOPIC : String := "audio"
def CHAT_TOPIC : String := "chat"
def CONTROL_TOPIC : String := "control"
def FILE_TOPIC : String := "file"

/-! Wire data model from src/p2p.rs. -/

inductive ControlMessage where
  | EndCall
deriving DecidableEq

inductive AppStatus where
  | WaitingForPeers
  | Joining
  | InCall
deriving DecidableEq

structure FrameData where
  peer_id : String
  frame : String
  is_audio_muted : Bool
  is_video_muted : Bool
deriving DecidableEq

structure AudioData where
  peer_id : String
  data : List Rat
deriving DecidableEq

structure ChatMessage where
  peer_id : String
  message : String
deriving DecidableEq

structure FileMessage where
  peer_id : String
  file_name : String
  content : List Nat
deriving DecidableEq

/-! Download bookkeeping from src/tui.rs. -/

inductive FileDownloadState where
  | Downloading
  | Completed (path : String)
  | Failed
deriving DecidableEq

structure FileDownload where
  file_name : String
  peer_id : String
  state : FileDownloadState
deriving DecidableEq

/-- A gossipsub payload, as the sum of the decodable envelope types.
A payload decodes at type T exactly when it was built from a T. -/
inductive WireMsg where
  | video (fd : FrameData)
  | audio (ad : AudioData)
  | chat (cm : ChatMessage)
  | file (fm : FileMessage)
  | control (c : ControlMessage)
  | malformed
deriving DecidableEq

def decodeFrameData : WireMsg → Option FrameData
  | WireMsg.video fd => some fd
  | _ => none

def decodeAudioData : WireMsg → Option AudioData
  | WireMsg.audio ad => some ad
  | _ => none

def decodeChatMessage : WireMsg → Option ChatMessage
  | WireMsg.chat cm => some cm
  | _ => none

def decodeFileMessage : WireMsg → Option FileMessage
  | WireMsg.file fm => some fm
  | _ => none

def decodeControlMessage : WireMsg → Option ControlMessage
  | WireMsg.control c => some c
  | _ => none

/-! The HashMap of remote views (Tui.remote_frames), modelled as an
association list with overwriting insert, keyed by peer id string. -/

def mapInsert (k : String) (v : String × Bool × Bool) :
    List (String × (String × Bool × Bool)) → List (String × (String × Bool × Bool))
  | [] => [(k, v)]
  | (k', v') :: rest => if k' = k then (k, v) :: rest else (k', v') :: mapInsert k v rest

def mapLookup (k : String) :
    List (String × (String × Bool × Bool)) → Option (String × Bool × Bool)
  | [] => none
  | (k', v') :: rest => if k' = k then some v' else mapLookup k rest

/-- The mutable session state owned by the loop in main: the app status and
mute flags (loop locals), the Tui fields the loop mutates, and the two SPSC
audio queues (captureQueue is the channel filled by the capture callback and
drained by the tick; playbackQueue is the channel filled by the message
handler and drained by the playback callback). -/
structure SessionState where
  appStatus : AppStatus
  remoteFrames : List (String × (String × Bool × Bool))
  listenAddresses : List String
  messages : List String
  downloads : List FileDownload
  input : String
  inputMode : Bool
  isAudioMuted : Bool
  isVideoMuted : Bool
  tuiDirty : Bool
  captureQueue : List (List Rat)
  playbackQueue : List (List Rat)
deriving DecidableEq

/-- Tui::update_frame from src/tui.rs: overwriting insert of the frame and
mute flags under the envelope's peer id. -/
def update_frame (fd : FrameData) (s : SessionState) : SessionState :=
  { s with remoteFrames :=
      mapInsert fd.peer_id (fd.frame, fd.is_audio_muted, fd.is_video_muted) s.remoteFrames }

/-- How one loop iteration ends: keep looping, leave the loop through break,
or return an error from main (the question-mark operator). -/
inductive LoopExit where
  | continue
  | breakLoop
  | errorReturn
deriving DecidableEq

/-- An attempted gossipsub publish: topic and envelope. -/
abbrev Publish := String × WireMsg

/-- Observable outcome of servicing one select arm: the successor state, the
publish attempts made, how the iteration ends, and whether the camera device
was touched. -/
structure StepOut where
  state : SessionState
  publishes : List Publish
  exit : LoopExit
  cameraCaptured : Bool
deriving DecidableEq

/-- A select arm that neither mutates beyond the given state nor publishes
nor leaves the loop. -/
def noop (s : SessionState) : StepOut :=
  { state := s, publishes := [], exit := LoopExit.continue, cameraCaptured := false }

/-- The slice peer_id with range len minus 6 to end, taken in the chat
branch of main. Rust panics when the string is shorter than 6 bytes
(the subtraction underflows or the byte index is out of bounds), modelled
as none. -/
def lastSix (s : String) : Option String :=
  if 6 ≤ s.length then some (s.drop (s.length - 6)) else none

/-- The gossipsub Message arm of the select in main (lines 295 to 392):
dispatch on the wire topic, deserialize the matching envelope type, drop on
decode failure, drop when the embedded peer id equals the local one, and
otherwise apply the topic's effect. none models a panic. The spawned file
save worker is an external collaborator and is not part of the step. -/
def handleMessage (localId topic : String) (msg : WireMsg) (s : SessionState) : Option StepOut :=
  if topic = VIDEO_TOPIC then
    match decodeFrameData msg with
    | some fd =>
      if fd.peer_id ≠ localId then
        some { state := { update_frame fd s with tuiDirty := true },
               publishes := [], exit := LoopExit.continue, cameraCaptured := false }
      else some (noop s)
    | none => some (noop s)
  else if topic = AUDIO_TOPIC then
    match decodeAudioData msg with
    | some ad =>
      if ad.peer_id ≠ localId then
        some (noop { s with playbackQueue := s.playbackQueue ++ [ad.data] })
      else some (noop s)
    | none => some (noop s)
  else if topic = CHAT_TOPIC then
    match decodeChatMessage msg with
    | some cm =>
      if cm.peer_id ≠ localId then
        match lastSix cm.peer_id with
        | some shortId =>
          some { state :=
                   { s with
                     messages := s.messages ++ [shortId ++ ": " ++ cm.message],
                     tuiDirty := true },
                 publishes := [], exit := LoopExit.continue, cameraCaptured := false }
        | none => none
      else some (noop s)
    | none => some (noop s)
  else if topic = FILE_TOPIC then
    match decodeFileMessage msg with
    | some fm =>
      if fm.peer_id ≠ localId then
        some { state :=
                 { s with
                   downloads := s.downloads ++
                     [{ file_name := fm.file_name, peer_id := fm.peer_id,
                        state := FileDownloadState.Downloading }],
                   tuiDirty := true },
               publishes := [], exit := LoopExit.continue, cameraCaptured := false }
      else some (noop s)
    | none => some (noop s)
  else if topic = CONTROL_TOPIC then
    match decodeControlMessage msg with
    | some c =>
      if c = ControlMessage.EndCall then
        some { state := s, publishes := [], exit := LoopExit.breakLoop, cameraCaptured := false }
      else some (noop s)
    | none => some (noop s)
  else some (noop s)

/-! Keyboard events (crossterm), restricted to what the loop inspects. -/

inductive KeyCode where
  | char (c : Char)
  | backspace
  | enter
  | esc
  | otherKey
deriving DecidableEq

/-- An event from the input reader thread: a key event with its press flag,
or some other terminal event the loop ignores. -/
inductive InputEvent where
  | keyEvt (press : Bool) (code : KeyCode)
  | otherEvent
deriving DecidableEq

/-- Swarm events, restricted to the fields the loop reads. ConnectionClosed
carries the number of connections that remain established, which the code
never inspects. -/
inductive SwarmEv where
  | connectionEstablished (peer : String)
  | dialing
  | connectionClosed (peer : String) (remainingEstablished : Nat)
  | incomingConnectionError
  | gossip (topic : String) (msg : WireMsg)
  | newListenAddr (addr : String)
  | otherSwarmEvent
deriving DecidableEq

/-- The four multiplexed sources of the select in main. The key arm carries
none when the input channel has closed. -/
inductive LoopInput where
  | tick
  | key (k : Option InputEvent)
  | swarm (ev : SwarmEv)
  | download (idx : Nat) (st : FileDownloadState)
deriving DecidableEq

/-- The collaborators outside the loop, as observed during one iteration:
the local peer id string, the text of the synthetic no-camera frame (the
result of create_no_camera_frame, produced by font rendering outside the
loop), the camera (none when absent at startup; some none when capture
errors; some (some f) when capture yields frame f), whether a gossipsub
publish would return an error this iteration, and the outcome of the file
dialog plus file read for the f key (none: dialog cancelled; some none:
read failed; some (some nc): name and content read). -/
structure Env where
  localId : String
  noCamFrame : String
  camera : Option (Option String)
  pubFail : Bool
  pickedFile : Option (Option (String × List Nat))

/-- The tick arm (main lines 121 to 172): when InCall, pick the frame
(synthetic while video-muted or on camera absence or error, camera
otherwise), publish the video envelope unconditionally, then, when not
audio-muted, try_recv one captured chunk and publish it. The terminal
repaint carries no session-state effect and is not modelled. -/
def handleTick (env : Env) (s : SessionState) : StepOut :=
  if s.appStatus = AppStatus.InCall then
    let fc : String × Bool :=
      if s.isVideoMuted = false then
        match env.camera with
        | some (some f) => (f, true)
        | some none => (env.noCamFrame, true)
        | none => (env.noCamFrame, false)
      else (env.noCamFrame, false)
    let videoPub : Publish :=
      (VIDEO_TOPIC, WireMsg.video
        { peer_id := env.localId, frame := fc.1,
          is_audio_muted := s.isAudioMuted, is_video_muted := s.isVideoMuted })
    if s.isAudioMuted = false then
      match s.captureQueue with
      | c :: rest =>
        { state := { s with captureQueue := rest },
          publishes := [videoPub, (AUDIO_TOPIC, WireMsg.audio { peer_id := env.localId, data := c })],
          exit := LoopExit.continue, cameraCaptured := fc.2 }
      | [] =>
        { state := s, publishes := [videoPub], exit := LoopExit.continue, cameraCaptured := fc.2 }
    else
      { state := s, publishes := [videoPub], exit := LoopExit.continue, cameraCaptured := fc.2 }
  else noop s

/-- One pressed key (main lines 177 to 271), dispatched on input mode. In
normal mode the match over Char q, i, m, v, f is written as an if chain
over the char. On q outside WaitingForPeers, end_call publishes EndCall and
its error propagates through the question mark into an error return. -/
def handleKeyPress (env : Env) (code : KeyCode) (s : SessionState) : StepOut :=
  if s.inputMode then
    match code with
    | KeyCode.char c =>
      { state := { s with input := s.input.push c, tuiDirty := true },
        publishes := [], exit := LoopExit.continue, cameraCaptured := false }
    | KeyCode.backspace =>
      { state := { s with input := s.input.dropRight 1, tuiDirty := true },
        publishes := [], exit := LoopExit.continue, cameraCaptured := false }
    | KeyCode.enter =>
      { state :=
          { s with
            messages := s.messages ++ ["You: " ++ s.input],
            input := "", inputMode := false, tuiDirty := true },
        publishes := [(CHAT_TOPIC, WireMsg.chat { peer_id := env.localId, message := s.input })],
        exit := LoopExit.continue, cameraCaptured := false }
    | KeyCode.esc =>
      { state := { s with input := "", inputMode := false, tuiDirty := true },
        publishes := [], exit := LoopExit.continue, cameraCaptured := false }
    | KeyCode.otherKey => noop s
  else
    match code with
    | KeyCode.char c =>
      if c = 'q' then
        if s.appStatus ≠ AppStatus.WaitingForPeers then
          if env.pubFail then
            { state := s, publishes := [(CONTROL_TOPIC, WireMsg.control ControlMessage.EndCall)],
              exit := LoopExit.errorReturn, cameraCaptured := false }
          else
            { state := s, publishes := [(CONTROL_TOPIC, WireMsg.control ControlMessage.EndCall)],
              exit := LoopExit.breakLoop, cameraCaptured := false }
        else
          { state := s, publishes := [], exit := LoopExit.breakLoop, cameraCaptured := false }
      else if c = 'i' then
        { state := { s with inputMode := true, tuiDirty := true },
          publishes := [], exit := LoopExit.continue, cameraCaptured := false }
      else if c = 'm' then
        { state := { s with isAudioMuted := !s.isAudioMuted, tuiDirty := true },
          publishes := [], exit := LoopExit.continue, cameraCaptured := false }
      else if c = 'v' then
        { state := { s with isVideoMuted := !s.isVideoMuted, tuiDirty := true },
          publishes := [], exit := LoopExit.continue, cameraCaptured := false }
      else if c = 'f' then
        match env.pickedFile with
        | some (some nc) =>
          let pub : Publish :=
            (FILE_TOPIC, WireMsg.file { peer_id := env.localId, file_name := nc.1, content := nc.2 })
          if env.pubFail then
            { state := s, publishes := [pub], exit := LoopExit.continue, cameraCaptured := false }
          else
            { state :=
                { s with
                  messages := s.messages ++ ["You sent a file: " ++ nc.1],
                  tuiDirty := true },
              publishes := [pub], exit := LoopExit.continue, cameraCaptured := false }
        | some none => noop s
        | none => noop s
      else noop s
    | _ => noop s

/-- The key arm of the select: break when the channel closed, dispatch on
presses, ignore releases and non-key events. -/
def handleKeyEvent (env : Env) (k : Option InputEvent) (s : SessionState) : StepOut :=
  match k with
  | none => { state := s, publishes := [], exit := LoopExit.breakLoop, cameraCaptured := false }
  | some (InputEvent.keyEvt press code) =>
    if press then handleKeyPress env code s else noop s
  | some InputEvent.otherEvent => noop s

/-- The swarm arm of the select (main lines 277 to 400). ConnectionClosed
publishes EndCall best-effort (the error is discarded) and breaks,
whatever the number of remaining connections. -/
def handleSwarm (env : Env) (ev : SwarmEv) (s : SessionState) : Option StepOut :=
  match ev with
  | SwarmEv.connectionEstablished _ =>
    some { state := { s with appStatus := AppStatus.InCall, tuiDirty := true },
           publishes := [], exit := LoopExit.continue, cameraCaptured := false }
  | SwarmEv.dialing => some (noop s)
  | SwarmEv.connectionClosed _ _ =>
    some { state := s, publishes := [(CONTROL_TOPIC, WireMsg.control ControlMessage.EndCall)],
           exit := LoopExit.breakLoop, cameraCaptured := false }
  | SwarmEv.incomingConnectionError => some (noop s)
  | SwarmEv.gossip topic msg => handleMessage env.localId topic msg s
  | SwarmEv.newListenAddr addr =>
    some { state :=
             { s with
               listenAddresses := s.listenAddresses ++ [addr ++ "/p2p/" ++ env.localId],
               tuiDirty := true },
           publishes := [], exit := LoopExit.continue, cameraCaptured := false }
  | SwarmEv.otherSwarmEvent => some (noop s)

/-- Set the state of the download entry at the given position, as get_mut
followed by assignment does; out-of-range leaves the list unchanged. -/
def setDownloadState (l : List FileDownload) (i : Nat) (st : FileDownloadState) :
    List FileDownload :=
  match l, i with
  | [], _ => []
  | d :: rest, 0 => { d with state := st } :: rest
  | d :: rest, Nat.succ n => d :: setDownloadState rest n st

/-- The download-status arm of the select (main lines 401 to 408). -/
def handleDownload (idx : Nat) (st : FileDownloadState) (s : SessionState) : StepOut :=
  if idx < s.downloads.length then
    { state := { s with downloads := setDownloadState s.downloads idx st, tuiDirty := true },
      publishes := [], exit := LoopExit.continue, cameraCaptured := false }
  else noop s

/-- One iteration of the session loop body: service exactly one source.
none models a panic inside the iteration. -/
def loopStep (env : Env) (inp : LoopInput) (s : SessionState) : Option StepOut :=
  match inp with
  | LoopInput.tick => some (handleTick env s)
  | LoopInput.key k => some (handleKeyEvent env k s)
  | LoopInput.swarm ev => handleSwarm env ev s
  | LoopInput.download idx st => some (handleDownload idx st s)

/-- One serviced iteration as recorded by a trace: the state the iteration
started from, the input serviced, and the outcome. -/
structure TraceRec where
  pre : SessionState
  inp : LoopInput
  out : StepOut

/-- Run the loop over a list of inputs under a fixed environment, recording
each serviced iteration; stop after the first iteration that leaves the
loop, and propagate a panic as none. -/
def runTrace (env : Env) : List LoopInput → SessionState → Option (List TraceRec)
  | [], _ => some []
  | i :: rest, s =>
    match loopStep env i s with
    | none => none
    | some out =>
      match out.exit with
      | LoopExit.continue =>
        (runTrace env rest out.state).map (fun rs => { pre := s, inp := i, out := out } :: rs)
      | _ => some [{ pre := s, inp := i, out := out }]

/-- The publish attempts of a step that went to the video topic. -/
def videoPubs (out : StepOut) : List Publish :=
  out.publishes.filter (fun p => p.1 = VIDEO_TOPIC)

/-- The publish attempts of a step that went to the audio topic. -/
def audioPubs (out : StepOut) : List Publish :=
  out.publishes.filter (fun p => p.1 = AUDIO_TOPIC)

/-- Whether an input is a pressed v key, the only input that can toggle the
local video mute flag. -/
def isVideoToggleKey : LoopInput → Bool
  | LoopInput.key (some (InputEvent.keyEvt true (KeyCode.char c))) => c = 'v'
  | _ => false

/-! Audio device callbacks from src/audio.rs. -/

/-- The capture callback body of create_input_stream: convert the samples
(identity at f32) and send the chunk into the unbounded channel, which
enqueues it at the back. -/
def captureCallback (data : List Rat) (q : List (List Rat)) : List (List Rat) :=
  q ++ [data]

/-- Overwrite the first min length samples of the buffer with the chunk and
leave the remaining samples untouched, as the indexed loop with take len
does. -/
def writeChunk : List Rat → List Rat → List Rat
  | [], _ => []
  | b :: bs, [] => b :: bs
  | _ :: bs, c :: cs => c :: writeChunk bs cs

/-- The playback callback body of create_output_stream: try_recv one chunk
from the inbound queue; on success copy the first min length samples over
the buffer, otherwise fill the whole buffer with silence. Returns the
buffer contents after the callback and the remaining queue. -/
def playbackCallback (buf : List Rat) (q : List (List Rat)) : List Rat × List (List Rat) :=
  match q with
  | chunk :: rest => (writeChunk buf chunk, rest)
  | [] => (buf.map (fun _ => (0 : Rat)), [])

/-! ASCII conversion from src/video.rs. -/

def ASCII_CHARS : List Char := [' ', '.', ':', '-', '=', '+', '*', '#', '%', '@']

/-- A grayscale image as to_luma8 yields it: dimensions plus the luminance
of each pixel, a u8 value. -/
structure GrayImage where
  width : Nat
  height : Nat
  pix : Nat → Nat → Nat

/-- The ramp index computed per pixel in to_ascii. -/
def asciiCharIndex (intensity : Nat) : Nat :=
  (intensity * (ASCII_CHARS.length - 1)) / 255

/-- The ramp character for a luminance value. The list access is total here;
the index is proved in bounds, matching the panicking access of the source. -/
def asciiCharOf (intensity : Nat) : Char :=
  ASCII_CHARS.getD (asciiCharIndex intensity) ' '

/-- to_ascii from src/video.rs: the nested loops over rows and columns,
pushing one ramp character per pixel and a newline after each row. -/
def to_ascii (img : GrayImage) : List Char :=
  (List.range img.height).foldl
    (fun acc y =>
      ((List.range img.width).foldl (fun acc2 x => acc2 ++ [asciiCharOf (img.pix x y)]) acc)
        ++ ['\n'])
    []

/-- Fold the gossipsub message handler over a list of inbound (topic,
payload) pairs, threading the state and propagating a panic. -/
def applyEvents (localId : String) : List (String × WireMsg) → SessionState → Option SessionState
  | [], s => some s
  | (t, m) :: rest, s =>
    match handleMessage localId t m s with
    | none => none
    | some out => applyEvents localId rest out.state

/-! Concrete fixtures used by counterexamples and witnesses. -/

/-- An in-call session state with all collections empty. -/
def initState : SessionState :=
  { appStatus := AppStatus.InCall, remoteFrames := [], listenAddresses := [], messages := [],
    downloads := [], input := "", inputMode := false, isAudioMuted := false,
    isVideoMuted := false, tuiDirty := false, captureQueue := [], playbackQueue := [] }

/-- An environment whose transport accepts publishes. -/
def env0 : Env :=
  { localId := "L", noCamFrame := "NC", camera := none, pubFail := false, pickedFile := none }

/-- An environment whose transport rejects every publish. -/
def envFail : Env :=
  { localId := "L", noCamFrame := "NC", camera := none, pubFail := true, pickedFile := none }

/-! Claim theorems. -/

/-- Claim C9: control messages are exempt from self-echo suppression: the
control branch deserializes a ControlMessage, which carries no peer id, and
any decodable EndCall breaks the loop whatever the local peer id, so an
echo of the local peer's own EndCall publish also terminates the loop. -/
theorem control_endCall_unconditional (localId : String) (s : SessionState)
    (c : ControlMessage) :
    handleMessage localId CONTROL_TOPIC (WireMsg.control c) s =
      some { state := s, publishes := [], exit := LoopExit.breakLoop,
             cameraCaptured := false } := by
  cases c
  rfl

/-- Claim C1: self-echo suppression. For each media topic, an envelope whose
embedded peer id equals the local peer id leaves remote frames, chat lines,
downloads and the inbound playback queue unchanged, and the handler performs
no publish. -/
theorem self_echo_suppression (localId : String) (s : SessionState) :
    (∀ fd : FrameData, fd.peer_id = localId →
      ∃ out, handleMessage localId VIDEO_TOPIC (WireMsg.video fd) s = some out ∧
        out.state.remoteFrames = s.remoteFrames ∧ out.state.messages = s.messages ∧
        out.state.downloads = s.downloads ∧ out.state.playbackQueue = s.playbackQueue ∧
        out.publishes = []) ∧
    (∀ ad : AudioData, ad.peer_id = localId →
      ∃ out, handleMessage localId AUDIO_TOPIC (WireMsg.audio ad) s = some out ∧
        out.state.remoteFrames = s.remoteFrames ∧ out.state.messages = s.messages ∧
        out.state.downloads = s.downloads ∧ out.state.playbackQueue = s.playbackQueue ∧
        out.publishes = []) ∧
    (∀ cm : ChatMessage, cm.peer_id = localId →
      ∃ out, handleMessage localId CHAT_TOPIC (WireMsg.chat cm) s = some out ∧
        out.state.remoteFrames = s.remoteFrames ∧ out.state.messages = s.messages ∧
        out.state.downloads = s.downloads ∧ out.state.playbackQueue = s.playbackQueue ∧
        out.publishes = []) ∧
    (∀ fm : FileMessage, fm.peer_id = localId →
      ∃ out, handleMessage localId FILE_TOPIC (WireMsg.file fm) s = some out ∧
        out.state.remoteFrames = s.remoteFrames ∧ out.state.messages = s.messages ∧
        out.state.downloads = s.downloads ∧ out.state.playbackQueue = s.playbackQueue ∧
        out.publishes = []) := by
  refine ⟨?_, ?_, ?_, ?_⟩
  · intro fd h
    refine ⟨noop s, ?_, rfl, rfl, rfl, rfl, rfl⟩
    unfold handleMessage
    rw [if_pos rfl]
    dsimp only [decodeFrameData]
    rw [if_neg (by simp [h])]
  · intro ad h
    refine ⟨noop s, ?_, rfl, rfl, rfl, rfl, rfl⟩
    unfold handleMessage
    rw [if_neg (by decide), if_pos rfl]
    dsimp only [decodeAudioData]
    rw [if_neg (by simp [h])]
  · intro cm h
    refine ⟨noop s, ?_, rfl, rfl, rfl, rfl, rfl⟩
    unfold handleMessage
    rw [if_neg (by decide), if_neg (by decide), if_pos rfl]
    dsimp only [decodeChatMessage]
    rw [if_neg (by simp [h])]
  · intro fm h
    refine ⟨noop s, ?_, rfl, rfl, rfl, rfl, rfl⟩
    unfold handleMessage
    rw [if_neg (by decide), if_neg (by decide), if_neg (by decide), if_pos rfl]
    dsimp only [decodeFileMessage]
    rw [if_neg (by simp [h])]

/-- A video envelope addressed from the fixture's own local peer id. -/
def selfFrame : FrameData :=
  { peer_id := "L", frame := "F", is_audio_muted := false, is_video_muted := false }

/-- Witness for C1 at a concrete self-addressed video envelope. -/
theorem self_echo_suppression_witness :
    selfFrame.peer_id = "L" ∧
    ∃ out, handleMessage "L" VIDEO_TOPIC (WireMsg.video selfFrame) initState = some out ∧
      out.state.remoteFrames = initState.remoteFrames ∧
      out.state.messages = initState.messages ∧
      out.state.downloads = initState.downloads ∧
      out.state.playbackQueue = initState.playbackQueue ∧
      out.publishes = [] :=
  ⟨rfl, (self_echo_suppression "L" initState).1 selfFrame rfl⟩

/-- Counterexample for C2: an otherwise well-formed chat envelope whose peer
id is shorter than six characters makes the handler panic on the byte slice
peer_id with range len minus 6 to end, so no chat line is appended; at the
claim's own instance with peer id P the handler aborts instead of appending
an entry ending in colon hi. -/
theorem chat_short_peer_counterexample :
    ("P" : String) ≠ "L" ∧
      handleMessage "L" CHAT_TOPIC (WireMsg.chat { peer_id := "P", message := "hi" })
        initState = none := by
  exact ⟨by decide, rfl⟩

/-- Claim C2 (amended: the inbound peer id must be at least six characters
long, as every well-formed libp2p peer id is; shorter ids make the slice
panic): a chat envelope from another peer appends exactly one line of the
form last-six-of-peer-id, colon, space, message, and changes nothing else. -/
theorem chat_append_last_six (localId : String) (s : SessionState) (cm : ChatMessage)
    (hne : cm.peer_id ≠ localId) (hlen : 6 ≤ cm.peer_id.length) :
    ∃ out, handleMessage localId CHAT_TOPIC (WireMsg.chat cm) s = some out ∧
      out.state.messages =
        s.messages ++ [cm.peer_id.drop (cm.peer_id.length - 6) ++ ": " ++ cm.message] ∧
      out.state.remoteFrames = s.remoteFrames ∧
      out.state.downloads = s.downloads ∧
      out.state.playbackQueue = s.playbackQueue ∧
      out.publishes = [] ∧ out.exit = LoopExit.continue := by
  have hms : lastSix cm.peer_id = some (cm.peer_id.drop (cm.peer_id.length - 6)) := by
    unfold lastSix
    rw [if_pos hlen]
  refine ⟨{ state :=
              { s with
                messages :=
                  s.messages ++ [cm.peer_id.drop (cm.peer_id.length - 6) ++ ": " ++ cm.message],
                tuiDirty := true },
            publishes := [], exit := LoopExit.continue, cameraCaptured := false },
          ?_, rfl, rfl, rfl, rfl, rfl, rfl⟩
  unfold handleMessage
  rw [if_neg (by decide), if_neg (by decide), if_pos rfl]
  dsimp only [decodeChatMessage]
  rw [if_pos hne, hms]

/-- Witness for C2 at a concrete envelope with a six-plus character peer id. -/
theorem chat_append_last_six_witness :
    ∃ out, handleMessage "L" CHAT_TOPIC
        (WireMsg.chat { peer_id := "peerabcdef", message := "hi" }) initState = some out ∧
      out.state.messages =
        initState.messages ++
          [("peerabcdef" : String).drop (("peerabcdef" : String).length - 6) ++ ": " ++ "hi"] ∧
      out.state.remoteFrames = initState.remoteFrames ∧
      out.state.downloads = initState.downloads ∧
      out.state.playbackQueue = initState.playbackQueue ∧
      out.publishes = [] ∧ out.exit = LoopExit.continue :=
  chat_append_last_six "L" initState { peer_id := "peerabcdef", message := "hi" }
    (by decide) (by decide)

/-- The partial overwrite of the playback buffer: the chunk replaces the
first min length samples and the tail of the buffer stays what it was. -/
theorem writeChunk_eq (buf chunk : List Rat) (h : chunk.length ≤ buf.length) :
    writeChunk buf chunk = chunk ++ buf.drop chunk.length := by
  induction chunk generalizing buf with
  | nil => cases buf <;> simp [writeChunk]
  | cons c cs ih =>
    cases buf with
    | nil => simp at h
    | cons b bs =>
      have hlen : cs.length ≤ bs.length := by simpa using h
      simp only [writeChunk, List.length_cons, List.cons_append, List.drop_succ_cons]
      rw [ih bs hlen]

/-- Counterexample for C3: with prior buffer contents one, one and a
one-sample chunk five, the callback leaves the second sample at one: the
excess of the buffer is not silence. -/
theorem playback_excess_counterexample :
    (playbackCallback [(1 : Rat), 1] [[(5 : Rat)]]).1 = [5, 1] ∧
      (playbackCallback [(1 : Rat), 1] [[(5 : Rat)]]).1 ≠ [5, 0] := by
  exact ⟨rfl, by decide⟩

/-- Claim C3 (amended: when the drained chunk is shorter than the output
buffer, the first chunk-length samples are the chunk's samples and the
remaining samples keep whatever the buffer previously held, rather than
being set to silence; a whole-buffer silence write happens only when the
queue is empty): the playback callback drains one chunk and partially
overwrites the buffer. -/
theorem playback_buffer_write :
    (∀ (buf chunk : List Rat) (rest : List (List Rat)), chunk.length ≤ buf.length →
      playbackCallback buf (chunk :: rest) = (chunk ++ buf.drop chunk.length, rest)) ∧
    (∀ buf : List Rat, playbackCallback buf [] = (buf.map (fun _ => (0 : Rat)), [])) := by
  constructor
  · intro buf chunk rest h
    have hstep : playbackCallback buf (chunk :: rest) = (writeChunk buf chunk, rest) := rfl
    rw [hstep, writeChunk_eq buf chunk h]
  · intro buf
    rfl

/-- Witness for C3 amended at a concrete short chunk and an empty queue. -/
theorem playback_buffer_write_witness :
    playbackCallback [(1 : Rat), 1, 1] [[(7 : Rat)]] = ([7, 1, 1], []) ∧
      playbackCallback [(1 : Rat)] [] = ([0], []) := by
  constructor
  · have h := playback_buffer_write.1 [(1 : Rat), 1, 1] [(7 : Rat)] [] (by decide)
    simpa using h
  · have h := playback_buffer_write.2 [(1 : Rat)]
    simpa using h

/-! Exit behaviour of the individual select arms. -/

/-- The tick arm never leaves the loop. -/
theorem handleTick_exit (env : Env) (s : SessionState) :
    (handleTick env s).exit = LoopExit.continue := by
  unfold handleTick noop
  dsimp only
  repeat' split
  all_goals rfl

/-- The download-status arm never leaves the loop. -/
theorem handleDownload_exit (idx : Nat) (st : FileDownloadState) (s : SessionState) :
    (handleDownload idx st s).exit = LoopExit.continue := by
  unfold handleDownload noop
  split
  all_goals rfl

/-- The gossipsub message arm either continues or breaks, never returns an
error from main. -/
theorem handleMessage_exit (localId topic : String) (msg : WireMsg) (s : SessionState)
    (out : StepOut) (h : handleMessage localId topic msg s = some out) :
    out.exit = LoopExit.continue ∨ out.exit = LoopExit.breakLoop := by
  unfold handleMessage noop at h
  repeat' split at h
  all_goals cases h
  all_goals simp

/-- The only way a key press produces an error return is the q key in
normal mode outside WaitingForPeers with a failing EndCall publish. -/
theorem handleKeyPress_error (env : Env) (code : KeyCode) (s : SessionState)
    (h : (handleKeyPress env code s).exit = LoopExit.errorReturn) :
    code = KeyCode.char 'q' ∧ s.inputMode = false ∧
      s.appStatus ≠ AppStatus.WaitingForPeers ∧ env.pubFail = true := by
  unfold handleKeyPress noop at h
  repeat' split at h
  all_goals simp_all

/-- Counterexample for C4: a failing EndCall publish triggered by pressing
q while in a call is propagated by the question-mark operator into an error
return from main, not suppressed. -/
theorem quit_publish_error_counterexample :
    envFail.pubFail = true ∧
      loopStep envFail (LoopInput.key (some (InputEvent.keyEvt true (KeyCode.char 'q'))))
          initState =
        some { state := initState,
               publishes := [(CONTROL_TOPIC, WireMsg.control ControlMessage.EndCall)],
               exit := LoopExit.errorReturn, cameraCaptured := false } :=
  ⟨rfl, rfl⟩

/-- Claim C4 (amended: publish errors are suppressed for the tick video and
audio publishes, the chat publish, the file publish and the EndCall publish
on ConnectionClosed; the single exception is the EndCall publish triggered
by pressing q outside WaitingForPeers, whose failure propagates as an error
return of main): an error return can arise from no iteration other than the
q key with a failing publish in normal mode outside WaitingForPeers. -/
theorem publish_errors_not_fatal_except_quit (env : Env) (inp : LoopInput) (s : SessionState)
    (out : StepOut) (h : loopStep env inp s = some out)
    (he : out.exit = LoopExit.errorReturn) :
    inp = LoopInput.key (some (InputEvent.keyEvt true (KeyCode.char 'q'))) ∧
      s.inputMode = false ∧ s.appStatus ≠ AppStatus.WaitingForPeers ∧ env.pubFail = true := by
  cases inp with
  | tick =>
    simp only [loopStep, Option.some.injEq] at h
    rw [← h, handleTick_exit] at he
    exact absurd he (by simp)
  | key k =>
    simp only [loopStep, Option.some.injEq] at h
    cases k with
    | none =>
      rw [← h] at he
      exact absurd he (by simp [handleKeyEvent])
    | some ie =>
      cases ie with
      | keyEvt press code =>
        cases press with
        | false =>
          rw [← h] at he
          exact absurd he (by simp [handleKeyEvent, noop])
        | true =>
          have hk : handleKeyPress env code s = out := by
            simpa [handleKeyEvent] using h
          rw [← hk] at he
          obtain ⟨hc, him, hw, hpf⟩ := handleKeyPress_error env code s he
          exact ⟨by rw [hc], him, hw, hpf⟩
      | otherEvent =>
        rw [← h] at he
        exact absurd he (by simp [handleKeyEvent, noop])
  | swarm ev =>
    cases ev with
    | gossip t m =>
      have hmsg : handleMessage env.localId t m s = some out := by
        simpa [loopStep, handleSwarm] using h
      rcases handleMessage_exit env.localId t m s out hmsg with h1 | h1 <;>
        rw [h1] at he <;> exact absurd he (by simp)
    | connectionEstablished p =>
      simp only [loopStep, handleSwarm, Option.some.injEq] at h
      rw [← h] at he
      exact absurd he (by simp)
    | dialing =>
      simp only [loopStep, handleSwarm, Option.some.injEq] at h
      rw [← h] at he
      exact absurd he (by simp [noop])
    | connectionClosed p n =>
      simp only [loopStep, handleSwarm, Option.some.injEq] at h
      rw [← h] at he
      exact absurd he (by simp)
    | incomingConnectionError =>
      simp only [loopStep, handleSwarm, Option.some.injEq] at h
      rw [← h] at he
      exact absurd he (by simp [noop])
    | newListenAddr a =>
      simp only [loopStep, handleSwarm, Option.some.injEq] at h
      rw [← h] at he
      exact absurd he (by simp)
    | otherSwarmEvent =>
      simp only [loopStep, handleSwarm, Option.some.injEq] at h
      rw [← h] at he
      exact absurd he (by simp [noop])
  | download idx st =>
    simp only [loopStep, Option.some.injEq] at h
    rw [← h, handleDownload_exit] at he
    exact absurd he (by simp)

/-- Witness for C4 amended, applying it at the concrete failing q press. -/
theorem publish_errors_not_fatal_except_quit_witness :
    LoopInput.key (some (InputEvent.keyEvt true (KeyCode.char 'q'))) =
        LoopInput.key (some (InputEvent.keyEvt true (KeyCode.char 'q'))) ∧
      initState.inputMode = false ∧
      initState.appStatus ≠ AppStatus.WaitingForPeers ∧ envFail.pubFail = true :=
  publish_errors_not_fatal_except_quit envFail
    (LoopInput.key (some (InputEvent.keyEvt true (KeyCode.char 'q')))) initState
    { state := initState,
      publishes := [(CONTROL_TOPIC, WireMsg.control ControlMessage.EndCall)],
      exit := LoopExit.errorReturn, cameraCaptured := false }
    rfl rfl

/-- Inversion of control-message decoding. -/
theorem decodeControlMessage_eq_some (m : WireMsg) (c : ControlMessage) :
    decodeControlMessage m = some c ↔ m = WireMsg.control c := by
  cases m <;> simp [decodeControlMessage]

/-- A payload that fails to decode as a control message is not one. -/
theorem decodeControlMessage_eq_none (m : WireMsg) :
    decodeControlMessage m = none ↔ ∀ c, m ≠ WireMsg.control c := by
  cases m with
  | control c =>
    constructor
    · intro h
      exact absurd h (by simp [decodeControlMessage])
    · intro h
      exact absurd rfl (h c)
  | video fd => simp [decodeControlMessage]
  | audio ad => simp [decodeControlMessage]
  | chat cm => simp [decodeControlMessage]
  | file fm => simp [decodeControlMessage]
  | malformed => simp [decodeControlMessage]

/-- A key press leaves the loop exactly when it is the q key in normal
mode (through break, or through the error return when the publish fails). -/
theorem handleKeyPress_exit_iff (env : Env) (code : KeyCode) (s : SessionState) :
    ((handleKeyPress env code s).exit ≠ LoopExit.continue ↔
      s.inputMode = false ∧ code = KeyCode.char 'q') := by
  unfold handleKeyPress noop
  repeat' split
  all_goals simp_all

/-- A gossipsub message breaks the loop exactly when it is a decodable
EndCall on the control topic. -/
theorem handleMessage_break_iff (localId topic : String) (msg : WireMsg) (s : SessionState)
    (out : StepOut) (h : handleMessage localId topic msg s = some out) :
    (out.exit ≠ LoopExit.continue ↔
      topic = CONTROL_TOPIC ∧ msg = WireMsg.control ControlMessage.EndCall) := by
  unfold handleMessage noop at h
  repeat' split at h
  all_goals cases h
  all_goals simp_all [decodeControlMessage_eq_some, decodeControlMessage_eq_none,
    VIDEO_TOPIC, AUDIO_TOPIC, CHAT_TOPIC, CONTROL_TOPIC, FILE_TOPIC]

/-- Counterexample for C5: a ConnectionClosed event with one connection
still established (remainingEstablished is one, which the code never
inspects) nevertheless terminates the loop. -/
theorem connection_closed_counterexample :
    (1 : Nat) ≠ 0 ∧
      loopStep env0 (LoopInput.swarm (SwarmEv.connectionClosed "peerB" 1)) initState =
        some { state := initState,
               publishes := [(CONTROL_TOPIC, WireMsg.control ControlMessage.EndCall)],
               exit := LoopExit.breakLoop, cameraCaptured := false } :=
  ⟨by decide, rfl⟩

/-- Claim C5 (amended: any ConnectionClosed event terminates the loop,
whether or not other peer connections remain established; the code never
inspects the remaining-connection count): from InCall, an iteration leaves
the loop exactly on the q key in normal mode, a decodable EndCall on the
control topic, closure of the input channel, or any ConnectionClosed
event. -/
theorem loop_termination_characterization (env : Env) (inp : LoopInput) (s : SessionState)
    (out : StepOut) (hst : s.appStatus = AppStatus.InCall)
    (h : loopStep env inp s = some out) :
    (out.exit ≠ LoopExit.continue ↔
      inp = LoopInput.key none ∨
        (s.inputMode = false ∧
          inp = LoopInput.key (some (InputEvent.keyEvt true (KeyCode.char 'q')))) ∨
        (∃ p n, inp = LoopInput.swarm (SwarmEv.connectionClosed p n)) ∨
        inp = LoopInput.swarm
          (SwarmEv.gossip CONTROL_TOPIC (WireMsg.control ControlMessage.EndCall))) := by
  cases inp with
  | tick =>
    simp only [loopStep, Option.some.injEq] at h
    rw [← h, handleTick_exit]
    simp
  | key k =>
    cases k with
    | none =>
      simp only [loopStep, Option.some.injEq] at h
      rw [← h]
      simp [handleKeyEvent]
    | some ie =>
      cases ie with
      | keyEvt press code =>
        simp only [loopStep, Option.some.injEq] at h
        cases press with
        | false =>
          rw [← h]
          simp [handleKeyEvent, noop]
        | true =>
          rw [← h]
          have hke : handleKeyEvent env (some (InputEvent.keyEvt true code)) s =
              handleKeyPress env code s := rfl
          rw [hke, handleKeyPress_exit_iff env code s]
          simp
      | otherEvent =>
        simp only [loopStep, Option.some.injEq] at h
        rw [← h]
        simp [handleKeyEvent, noop]
  | swarm ev =>
    cases ev with
    | connectionEstablished p =>
      simp only [loopStep, handleSwarm, Option.some.injEq] at h
      rw [← h]
      simp
    | dialing =>
      simp only [loopStep, handleSwarm, Option.some.injEq] at h
      rw [← h]
      simp [noop]
    | connectionClosed p n =>
      simp only [loopStep, handleSwarm, Option.some.injEq] at h
      rw [← h]
      simp
    | incomingConnectionError =>
      simp only [loopStep, handleSwarm, Option.some.injEq] at h
      rw [← h]
      simp [noop]
    | gossip t m =>
      have hmsg : handleMessage env.localId t m s = some out := by
        simpa [loopStep, handleSwarm] using h
      rw [handleMessage_break_iff env.localId t m s out hmsg]
      simp
    | newListenAddr a =>
      simp only [loopStep, handleSwarm, Option.some.injEq] at h
      rw [← h]
      simp
    | otherSwarmEvent =>
      simp only [loopStep, handleSwarm, Option.some.injEq] at h
      rw [← h]
      simp [noop]
  | download idx st =>
    simp only [loopStep, Option.some.injEq] at h
    rw [← h, handleDownload_exit]
    simp

/-- Witness for C5 amended: the concrete ConnectionClosed iteration with a
remaining connection leaves the loop. -/
theorem loop_termination_characterization_witness :
    ({ state := initState,
       publishes := [(CONTROL_TOPIC, WireMsg.control ControlMessage.EndCall)],
       exit := LoopExit.breakLoop, cameraCaptured := false } : StepOut).exit ≠
      LoopExit.continue :=
  (loop_termination_characterization env0
      (LoopInput.swarm (SwarmEv.connectionClosed "peerB" 1)) initState
      { state := initState,
        publishes := [(CONTROL_TOPIC, WireMsg.control ControlMessage.EndCall)],
        exit := LoopExit.breakLoop, cameraCaptured := false }
      rfl rfl).mpr
    (Or.inr (Or.inr (Or.inl ⟨"peerB", 1, rfl⟩)))

/-! Last-writer-wins facts about the remote-views map. -/

/-- Looking up the key just inserted yields the inserted value. -/
theorem mapLookup_insert_self (k : String) (v : String × Bool × Bool)
    (m : List (String × (String × Bool × Bool))) :
    mapLookup k (mapInsert k v m) = some v := by
  induction m with
  | nil => simp [mapInsert, mapLookup]
  | cons hd tl ih =>
    obtain ⟨k', v'⟩ := hd
    by_cases h : k' = k
    · simp [mapInsert, mapLookup, h]
    · simp [mapInsert, mapLookup, h, ih]

/-- Inserting twice under the same key keeps only the later value. -/
theorem mapInsert_mapInsert (k : String) (v w : String × Bool × Bool)
    (m : List (String × (String × Bool × Bool))) :
    mapInsert k v (mapInsert k w m) = mapInsert k v m := by
  induction m with
  | nil => simp [mapInsert]
  | cons hd tl ih =>
    obtain ⟨k', v'⟩ := hd
    by_cases h : k' = k
    · simp [mapInsert, h]
    · simp [mapInsert, h, ih]

/-- The video branch of the message handler on a foreign envelope is the
remote-views upsert plus the dirty flag. -/
theorem handleMessage_video (localId : String) (s : SessionState) (fd : FrameData)
    (h : fd.peer_id ≠ localId) :
    handleMessage localId VIDEO_TOPIC (WireMsg.video fd) s =
      some { state := { update_frame fd s with tuiDirty := true },
             publishes := [], exit := LoopExit.continue, cameraCaptured := false } := by
  unfold handleMessage
  rw [if_pos rfl]
  dsimp only [decodeFrameData]
  rw [if_pos h]

/-- Claim C6: last-writer-wins remote views. Consuming any nonempty
sequence of video envelopes that share one foreign peer id leaves that
peer's remote view holding exactly the frame and mute flags of the last
envelope, and the resulting map equals the one obtained by applying
update_frame to the last envelope alone. -/
theorem remote_views_last_writer_wins (localId p : String) (fds : List FrameData)
    (lfd : FrameData) (s s' : SessionState)
    (hlast : fds.getLast? = some lfd)
    (hall : ∀ fd ∈ fds, fd.peer_id = p) (hp : p ≠ localId)
    (hrun : applyEvents localId (fds.map fun fd => (VIDEO_TOPIC, WireMsg.video fd)) s =
      some s') :
    mapLookup p s'.remoteFrames =
        some (lfd.frame, lfd.is_audio_muted, lfd.is_video_muted) ∧
      s'.remoteFrames = (update_frame lfd s).remoteFrames := by
  induction fds generalizing s with
  | nil => simp at hlast
  | cons fd rest ih =>
    have hfd : fd.peer_id = p := hall fd (List.mem_cons_self fd rest)
    rw [List.map_cons] at hrun
    unfold applyEvents at hrun
    rw [handleMessage_video localId s fd (by rw [hfd]; exact hp)] at hrun
    dsimp only at hrun
    cases rest with
    | nil =>
      have hl : fd = lfd := by simpa using hlast
      subst hl
      unfold applyEvents at hrun
      have hs' : s' = { update_frame fd s with tuiDirty := true } := by
        simpa using hrun.symm
      subst hs'
      constructor
      · show mapLookup p (update_frame fd s).remoteFrames = _
        unfold update_frame
        dsimp only
        rw [hfd, mapLookup_insert_self]
      · rfl
    | cons fd2 rest2 =>
      have hlast2 : (fd2 :: rest2).getLast? = some lfd := by
        rw [List.getLast?_cons_cons] at hlast
        exact hlast
      have hall2 : ∀ g ∈ fd2 :: rest2, g.peer_id = p := fun g hg =>
        hall g (List.mem_cons_of_mem fd hg)
      have hlfd : lfd.peer_id = p := hall2 lfd (List.mem_of_mem_getLast? hlast2)
      obtain ⟨h1, h2⟩ := ih _ hlast2 hall2 hrun
      refine ⟨h1, ?_⟩
      rw [h2]
      unfold update_frame
      dsimp only
      rw [hfd, hlfd, mapInsert_mapInsert]

/-- Witness for C6 at the scenario with two consecutive envelopes from one
peer carrying different frames: the view keeps the second. -/
theorem remote_views_last_writer_wins_witness :
    mapLookup "peerP"
        (SessionState.remoteFrames
          { initState with
            remoteFrames := [("peerP", ("F2", true, false))], tuiDirty := true }) =
        some ("F2", true, false) ∧
      SessionState.remoteFrames
          { initState with
            remoteFrames := [("peerP", ("F2", true, false))], tuiDirty := true } =
        (update_frame
            { peer_id := "peerP", frame := "F2", is_audio_muted := true,
              is_video_muted := false } initState).remoteFrames :=
  remote_views_last_writer_wins "L" "peerP"
    [{ peer_id := "peerP", frame := "F1", is_audio_muted := false, is_video_muted := false },
     { peer_id := "peerP", frame := "F2", is_audio_muted := true, is_video_muted := false }]
    { peer_id := "peerP", frame := "F2", is_audio_muted := true, is_video_muted := false }
    initState
    { initState with remoteFrames := [("peerP", ("F2", true, false))], tuiDirty := true }
    rfl (by decide) (by decide) rfl

/-- An in-call state with two chunks waiting in the capture queue. -/
def sQueue : SessionState :=
  { initState with captureQueue := [[(1 : Rat)], [(2 : Rat)]] }

/-- Claim C10: while audio-muted, a tick neither drains the capture queue
nor publishes on the audio topic; the capture callback enqueues at the
back, so chunks accumulate in FIFO order; and an unmuted in-call tick with
a nonempty queue publishes exactly the oldest chunk, one chunk per tick,
and removes it from the queue. -/
theorem audio_mute_queue :
    (∀ (env : Env) (s : SessionState), s.isAudioMuted = true →
      (handleTick env s).state.captureQueue = s.captureQueue ∧
        audioPubs (handleTick env s) = []) ∧
    (∀ (q chunks : List (List Rat)),
      chunks.foldl (fun acc c => captureCallback c acc) q = q ++ chunks) ∧
    (∀ (env : Env) (s : SessionState) (c : List Rat) (rest : List (List Rat)),
      s.isAudioMuted = false → s.appStatus = AppStatus.InCall →
      s.captureQueue = c :: rest →
      audioPubs (handleTick env s) =
          [(AUDIO_TOPIC, WireMsg.audio { peer_id := env.localId, data := c })] ∧
        (handleTick env s).state.captureQueue = rest) := by
  refine ⟨?_, ?_, ?_⟩
  · intro env s hm
    by_cases hs : s.appStatus = AppStatus.InCall
    · constructor
      · simp [handleTick, noop, hs, hm]
      · simp [handleTick, audioPubs, noop, hs, hm, VIDEO_TOPIC, AUDIO_TOPIC]
    · constructor
      · simp [handleTick, noop, hs]
      · simp [handleTick, audioPubs, noop, hs]
  · intro q chunks
    induction chunks generalizing q with
    | nil => simp
    | cons c cs ih =>
      rw [List.foldl_cons, ih]
      simp [captureCallback]
  · intro env s c rest hm hin hq
    constructor
    · simp [handleTick, audioPubs, noop, hm, hin, hq, VIDEO_TOPIC, AUDIO_TOPIC]
    · simp [handleTick, noop, hm, hin, hq]

/-- Witness for C10 at a concrete muted tick and a concrete unmuted tick
with two queued chunks. -/
theorem audio_mute_queue_witness :
    ((handleTick env0 { initState with isAudioMuted := true }).state.captureQueue =
        ({ initState with isAudioMuted := true } : SessionState).captureQueue ∧
      audioPubs (handleTick env0 { initState with isAudioMuted := true }) = []) ∧
      (audioPubs (handleTick env0 sQueue) =
          [(AUDIO_TOPIC, WireMsg.audio { peer_id := "L", data := [(1 : Rat)] })] ∧
        (handleTick env0 sQueue).state.captureQueue = [[(2 : Rat)]]) :=
  ⟨audio_mute_queue.1 env0 { initState with isAudioMuted := true } rfl,
   audio_mute_queue.2.2 env0 sQueue [(1 : Rat)] [[(2 : Rat)]] rfl rfl rfl⟩

/-! Video-mute propagation. -/

/-- A tick never changes the local video mute flag. -/
theorem handleTick_videoMuted (env : Env) (s : SessionState) :
    (handleTick env s).state.isVideoMuted = s.isVideoMuted := by
  unfold handleTick noop
  dsimp only
  repeat' split
  all_goals rfl

/-- A gossipsub message never changes the local video mute flag. -/
theorem handleMessage_videoMuted (localId topic : String) (msg : WireMsg) (s : SessionState)
    (out : StepOut) (h : handleMessage localId topic msg s = some out) :
    out.state.isVideoMuted = s.isVideoMuted := by
  unfold handleMessage noop update_frame at h
  repeat' split at h
  all_goals cases h
  all_goals rfl

/-- No input other than a pressed v key changes the local video mute flag. -/
theorem loopStep_preserves_videoMuted (env : Env) (inp : LoopInput) (s : SessionState)
    (out : StepOut) (h : loopStep env inp s = some out)
    (hv : isVideoToggleKey inp = false) :
    out.state.isVideoMuted = s.isVideoMuted := by
  cases inp with
  | tick =>
    simp only [loopStep, Option.some.injEq] at h
    rw [← h]
    exact handleTick_videoMuted env s
  | key k =>
    simp only [loopStep, Option.some.injEq] at h
    cases k with
    | none =>
      rw [← h]
      rfl
    | some ie =>
      cases ie with
      | keyEvt press code =>
        cases press with
        | false =>
          rw [← h]
          rfl
        | true =>
          have hk : handleKeyPress env code s = out := by
            simpa [handleKeyEvent] using h
          rw [← hk]
          unfold handleKeyPress noop
          repeat' split
          all_goals simp_all [isVideoToggleKey]
      | otherEvent =>
        rw [← h]
        rfl
  | swarm ev =>
    cases ev with
    | connectionEstablished p =>
      simp only [loopStep, handleSwarm, Option.some.injEq] at h
      rw [← h]
    | dialing =>
      simp only [loopStep, handleSwarm, Option.some.injEq] at h
      rw [← h]
      rfl
    | connectionClosed p n =>
      simp only [loopStep, handleSwarm, Option.some.injEq] at h
      rw [← h]
    | incomingConnectionError =>
      simp only [loopStep, handleSwarm, Option.some.injEq] at h
      rw [← h]
      rfl
    | gossip t m =>
      have hmsg : handleMessage env.localId t m s = some out := by
        simpa [loopStep, handleSwarm] using h
      exact handleMessage_videoMuted env.localId t m s out hmsg
    | newListenAddr a =>
      simp only [loopStep, handleSwarm, Option.some.injEq] at h
      rw [← h]
    | otherSwarmEvent =>
      simp only [loopStep, handleSwarm, Option.some.injEq] at h
      rw [← h]
      rfl
  | download idx st =>
    simp only [loopStep, Option.some.injEq] at h
    rw [← h]
    unfold handleDownload noop
    split
    all_goals rfl

/-- A video-muted in-call tick publishes exactly one video envelope, whose
frame is the synthetic no-camera frame and whose video-muted flag is true,
and does not touch the camera. -/
theorem handleTick_muted_video (env : Env) (s : SessionState)
    (hin : s.appStatus = AppStatus.InCall) (hm : s.isVideoMuted = true) :
    videoPubs (handleTick env s) =
        [(VIDEO_TOPIC, WireMsg.video
          { peer_id := env.localId, frame := env.noCamFrame,
            is_audio_muted := s.isAudioMuted, is_video_muted := true })] ∧
      (handleTick env s).cameraCaptured = false := by
  by_cases ha : s.isAudioMuted = false
  · cases hq : s.captureQueue with
    | nil =>
      constructor
      · simp [handleTick, videoPubs, noop, hin, hm, ha, hq, VIDEO_TOPIC, AUDIO_TOPIC]
      · simp [handleTick, noop, hin, hm, ha, hq]
    | cons c rest =>
      constructor
      · simp [handleTick, videoPubs, noop, hin, hm, ha, hq, VIDEO_TOPIC, AUDIO_TOPIC]
      · simp [handleTick, noop, hin, hm, ha, hq]
  · constructor
    · simp [handleTick, videoPubs, noop, hin, hm, ha, VIDEO_TOPIC, AUDIO_TOPIC]
    · simp [handleTick, noop, hin, hm, ha]

/-- The tick outcome under a video-muted in-call pre-state, at the loopStep
level. -/
theorem tick_rec_property (env : Env) (s0 : SessionState) (out : StepOut)
    (hstep : loopStep env LoopInput.tick s0 = some out)
    (hs0 : s0.isVideoMuted = true) (hin : s0.appStatus = AppStatus.InCall) :
    videoPubs out =
        [(VIDEO_TOPIC, WireMsg.video
          { peer_id := env.localId, frame := env.noCamFrame,
            is_audio_muted := s0.isAudioMuted, is_video_muted := true })] ∧
      out.cameraCaptured = false := by
  have hout : out = handleTick env s0 := by
    have h2 : some (handleTick env s0) = some out := hstep
    exact (Option.some.inj h2).symm
  rw [hout]
  exact handleTick_muted_video env s0 hin hs0

/-- Claim C7: video mute propagation. Pressing v in normal mode toggles the
flag to true, and from any video-muted state, every serviced in-call tick of
any following run that contains no further v press publishes exactly one
video envelope, carrying the synthetic no-camera frame and a true
video-muted flag, without touching the camera. -/
theorem video_mute_propagation :
    (∀ (env : Env) (s : SessionState) (out : StepOut),
      loopStep env (LoopInput.key (some (InputEvent.keyEvt true (KeyCode.char 'v')))) s =
          some out →
      s.inputMode = false → s.isVideoMuted = false → out.state.isVideoMuted = true) ∧
    (∀ (env : Env) (inputs : List LoopInput) (s0 : SessionState) (recs : List TraceRec),
      s0.isVideoMuted = true →
      (∀ i ∈ inputs, isVideoToggleKey i = false) →
      runTrace env inputs s0 = some recs →
      ∀ r ∈ recs, r.inp = LoopInput.tick → r.pre.appStatus = AppStatus.InCall →
        videoPubs r.out =
            [(VIDEO_TOPIC, WireMsg.video
              { peer_id := env.localId, frame := env.noCamFrame,
                is_audio_muted := r.pre.isAudioMuted, is_video_muted := true })] ∧
          r.out.cameraCaptured = false) := by
  constructor
  · intro env s out h him hv
    have hk : handleKeyPress env (KeyCode.char 'v') s = out := by
      simpa [loopStep, handleKeyEvent] using h
    rw [← hk]
    unfold handleKeyPress
    rw [if_neg (by simp [him])]
    dsimp only
    rw [if_neg (by decide), if_neg (by decide), if_neg (by decide), if_pos rfl]
    simp [hv]
  · intro env inputs
    induction inputs with
    | nil =>
      intro s0 recs hs0 hvs hrun r hr hti hin
      obtain rfl : ([] : List TraceRec) = recs := by simpa [runTrace] using hrun
      simp at hr
    | cons i rest ih =>
      intro s0 recs hs0 hvs hrun r hr hti hin
      unfold runTrace at hrun
      cases hstep : loopStep env i s0 with
      | none =>
        rw [hstep] at hrun
        simp at hrun
      | some out =>
        rw [hstep] at hrun
        dsimp only at hrun
        have hmut : out.state.isVideoMuted = true := by
          rw [loopStep_preserves_videoMuted env i s0 out hstep
            (hvs i (List.mem_cons_self i rest))]
          exact hs0
        cases hex : out.exit
        · rw [hex] at hrun
          dsimp only at hrun
          rcases Option.map_eq_some'.mp hrun with ⟨rs, hrs, hmap⟩
          subst hmap
          rcases List.mem_cons.mp hr with hhead | htail
          · subst hhead
            dsimp only at hti hin
            subst hti
            exact tick_rec_property env s0 out hstep hs0 hin
          · exact ih out.state rs hmut (fun j hj => hvs j (List.mem_cons_of_mem i hj))
              hrs r htail hti hin
        · rw [hex] at hrun
          dsimp only at hrun
          obtain rfl : [({ pre := s0, inp := i, out := out } : TraceRec)] = recs := by
            simpa using hrun
          rcases List.mem_cons.mp hr with hhead | htail
          · subst hhead
            dsimp only at hti hin
            subst hti
            exact tick_rec_property env s0 out hstep hs0 hin
          · simp at htail
        · rw [hex] at hrun
          dsimp only at hrun
          obtain rfl : [({ pre := s0, inp := i, out := out } : TraceRec)] = recs := by
            simpa using hrun
          rcases List.mem_cons.mp hr with hhead | htail
          · subst hhead
            dsimp only at hti hin
            subst hti
            exact tick_rec_property env s0 out hstep hs0 hin
          · simp at htail

/-- An in-call state whose video is muted. -/
def sMutedV : SessionState := { initState with isVideoMuted := true }

/-- Witness for C7: the one-tick run from a video-muted in-call state
publishes the muted no-camera envelope and leaves the camera untouched. -/
theorem video_mute_propagation_witness :
    videoPubs (handleTick env0 sMutedV) =
        [(VIDEO_TOPIC, WireMsg.video
          { peer_id := env0.localId, frame := env0.noCamFrame,
            is_audio_muted := sMutedV.isAudioMuted, is_video_muted := true })] ∧
      (handleTick env0 sMutedV).cameraCaptured = false :=
  video_mute_propagation.2 env0 [LoopInput.tick] sMutedV
    [{ pre := sMutedV, inp := LoopInput.tick, out := handleTick env0 sMutedV }]
    rfl
    (by
      intro j hj
      rw [List.mem_singleton] at hj
      subst hj
      rfl)
    rfl
    { pre := sMutedV, inp := LoopInput.tick, out := handleTick env0 sMutedV }
    (List.mem_cons_self _ _) rfl rfl

/-! Shape of the ASCII frame produced by to_ascii. -/

/-- One output row of to_ascii: the ramp characters of a pixel row followed
by the newline. -/
def asciiRow (img : GrayImage) (y : Nat) : List Char :=
  (List.range img.width).map (fun x => asciiCharOf (img.pix x y)) ++ ['\n']

/-- The concatenation of the first n output rows. -/
def asciiRows (img : GrayImage) : Nat → List Char
  | 0 => []
  | Nat.succ m => asciiRows img m ++ asciiRow img m

/-- Pushing characters one at a time along a list is an append of the map. -/
theorem foldl_push (l : List Nat) (f : Nat → Char) (acc : List Char) :
    l.foldl (fun a x => a ++ [f x]) acc = acc ++ l.map f := by
  induction l generalizing acc with
  | nil => simp
  | cons hd tl ih =>
    rw [List.foldl_cons, ih]
    simp

/-- The nested push loops of to_ascii produce the row concatenation. -/
theorem to_ascii_eq_rows (img : GrayImage) : to_ascii img = asciiRows img img.height := by
  suffices h : ∀ (n : Nat) (acc : List Char),
      (List.range n).foldl
          (fun acc y =>
            ((List.range img.width).foldl
              (fun acc2 x => acc2 ++ [asciiCharOf (img.pix x y)]) acc) ++ ['\n'])
          acc = acc ++ asciiRows img n by
    have h2 := h img.height []
    simpa [to_ascii] using h2
  intro n
  induction n with
  | zero =>
    intro acc
    simp [asciiRows]
  | succ m ihn =>
    intro acc
    rw [List.range_succ, List.foldl_append, ihn]
    rw [List.foldl_cons, List.foldl_nil, foldl_push]
    simp [asciiRows, asciiRow, List.append_assoc]

/-- The first n rows hold n times width-plus-one characters. -/
theorem asciiRows_length (img : GrayImage) (n : Nat) :
    (asciiRows img n).length = n * (img.width + 1) := by
  induction n with
  | zero => simp [asciiRows]
  | succ m ih =>
    show (asciiRows img m ++ asciiRow img m).length = (m + 1) * (img.width + 1)
    rw [List.length_append, ih]
    simp [asciiRow]
    ring

/-- Indexing into the row concatenation lands in the addressed row. -/
theorem asciiRows_getElem (img : GrayImage) (n y k : Nat) (hy : y < n)
    (hk : k < img.width + 1) :
    (asciiRows img n)[y * (img.width + 1) + k]? = (asciiRow img y)[k]? := by
  induction n with
  | zero => exact absurd hy (Nat.not_lt_zero y)
  | succ m ih =>
    show (asciiRows img m ++ asciiRow img m)[y * (img.width + 1) + k]? = _
    by_cases hym : y < m
    · have hidx : y * (img.width + 1) + k < (asciiRows img m).length := by
        rw [asciiRows_length]
        have h1 : y + 1 ≤ m := hym
        calc y * (img.width + 1) + k < y * (img.width + 1) + (img.width + 1) := by omega
          _ = (y + 1) * (img.width + 1) := by ring
          _ ≤ m * (img.width + 1) := Nat.mul_le_mul_right _ h1
      rw [List.getElem?_append_left hidx]
      exact ih hym
    · have hym2 : y = m := by omega
      subst hym2
      have hlen : (asciiRows img y).length = y * (img.width + 1) := asciiRows_length img y
      rw [List.getElem?_append_right (by rw [hlen]; omega)]
      have hsub : y * (img.width + 1) + k - (asciiRows img y).length = k := by
        rw [hlen]
        omega
      rw [hsub]

/-- The in-row characters are the ramp characters of the pixels. -/
theorem asciiRow_getElem_lt (img : GrayImage) (y x : Nat) (hx : x < img.width) :
    (asciiRow img y)[x]? = some (asciiCharOf (img.pix x y)) := by
  unfold asciiRow
  rw [List.getElem?_append_left (by simpa using hx)]
  rw [List.getElem?_map, List.getElem?_range hx]
  rfl

/-- Every row ends in the newline. -/
theorem asciiRow_getElem_last (img : GrayImage) (y : Nat) :
    (asciiRow img y)[img.width]? = some '\n' := by
  unfold asciiRow
  rw [List.getElem?_append_right (by simp)]
  simp

/-- Claim C8: to_ascii yields exactly height newline-terminated rows of
exactly width characters; the character at column x of row y is the ramp
character at index intensity times nine over 255, and that index is always
within the ten-character ramp. -/
theorem ascii_frame_shape (img : GrayImage) (hpix : ∀ x y, img.pix x y < 256) :
    (to_ascii img).length = img.height * (img.width + 1) ∧
    (∀ y, y < img.height → ∀ x, x < img.width →
      (to_ascii img)[y * (img.width + 1) + x]? =
        some (ASCII_CHARS.getD (img.pix x y * (ASCII_CHARS.length - 1) / 255) ' ')) ∧
    (∀ y, y < img.height →
      (to_ascii img)[y * (img.width + 1) + img.width]? = some '\n') ∧
    (∀ x y, img.pix x y * (ASCII_CHARS.length - 1) / 255 < ASCII_CHARS.length) := by
  refine ⟨?_, ?_, ?_, ?_⟩
  · rw [to_ascii_eq_rows, asciiRows_length]
  · intro y hy x hx
    rw [to_ascii_eq_rows, asciiRows_getElem img img.height y x hy (by omega),
      asciiRow_getElem_lt img y x hx]
    rfl
  · intro y hy
    rw [to_ascii_eq_rows, asciiRows_getElem img img.height y img.width hy (by omega),
      asciiRow_getElem_last]
  · intro x y
    have h := hpix x y
    have hlen : ASCII_CHARS.length = 10 := by rfl
    rw [hlen]
    exact Nat.div_lt_of_lt_mul (by omega)

/-- Witness for C8 at a concrete two-by-one all-black image. -/
theorem ascii_frame_shape_witness :
    (to_ascii { width := 2, height := 1, pix := fun _ _ => 0 }).length = 1 * (2 + 1) :=
  (ascii_frame_shape { width := 2, height := 1, pix := fun _ _ => 0 }
    (fun _ _ => by
      show (0 : Nat) < 256
      decide)).1

end RustMeet
